import Mathlib

/-!
Verification of the extractive summarizer in `14_nlp_class.py` (`summarize`,
lines 189–221).

The summarizer scores each sufficiently long sentence of a selected document
by the sum of the TF-IDF weights of its vocabulary tokens divided by
(token count + 1), then reports the three lowest- and three highest-scoring
(score, sentence) pairs.

External collaborators (the sentence tokenizer `nltk.sent_tokenize`, the word
tokenizer `nltk.word_tokenize`, and the fitted TF-IDF model giving `dtm` and
`features`) are parameters of the embedding.  Floating point scores are
modelled by rationals; Python's `sorted` on `(score, sentence)` tuples is
modelled by a stable insertion sort under the lexicographic order on pairs,
which (the pair order being antisymmetric) produces the same list.
-/

namespace NlpClass

/-- The inner loop of `summarize` over the word tokens of one sentence:
```
score = 0
token_count = 0
for token in tokens:
    if token in features:
        score += dtm[review_id, features.index(token)]
        token_count += 1
```
returns the pair `(score, token_count)`. -/
def scoreLoop (dtm : ℕ → ℕ → ℚ) (features : List String) (review_id : ℕ)
    (tokens : List String) : ℚ × ℕ :=
  tokens.foldl
    (fun acc token =>
      if token ∈ features then
        (acc.1 + dtm review_id (features.indexOf token), acc.2 + 1)
      else acc)
    (0, 0)

/-- The sentence loop of `summarize`:
```
for sentence in sent_tokenize(review_text):
    if len(sentence) > 6:
        ... score the sentence ...
        sent_scores.append((score / float(token_count + 1), sentence))
```
-/
def scoreSentences (wordtok : String → List String) (dtm : ℕ → ℕ → ℚ)
    (features : List String) (review_id : ℕ) : List String → List (ℚ × String)
  | [] => []
  | sentence :: rest =>
      if sentence.length > 6 then
        let p := scoreLoop dtm features review_id (wordtok sentence)
        (p.1 / ((p.2 : ℚ) + 1), sentence) ::
          scoreSentences wordtok dtm features review_id rest
      else scoreSentences wordtok dtm features review_id rest

/-- `sent_scores` as built by `summarize` for the selected review text. -/
def sentScores (senttok wordtok : String → List String) (dtm : ℕ → ℕ → ℚ)
    (features : List String) (review_id : ℕ) (review_text : String) :
    List (ℚ × String) :=
  scoreSentences wordtok dtm features review_id (senttok review_text)

/-- Python's `<` on `(float, str)` tuples: lexicographic comparison,
first on the score, then on the sentence text. -/
def pairLe (a b : ℚ × String) : Prop :=
  a.1 < b.1 ∨ (a.1 = b.1 ∧ a.2 ≤ b.2)

/-- The reversed comparison used by `sorted(sent_scores, reverse=True)`. -/
def pairGe (a b : ℚ × String) : Prop :=
  pairLe b a

instance : DecidableRel pairLe := fun a b => by
  unfold pairLe; infer_instance

instance : DecidableRel pairGe := fun a b => by
  unfold pairGe pairLe; infer_instance

instance : IsTotal (ℚ × String) pairLe :=
  ⟨fun a b => by
    unfold pairLe
    rcases lt_trichotomy a.1 b.1 with h | h | h
    · exact Or.inl (Or.inl h)
    · rcases le_total a.2 b.2 with h2 | h2
      · exact Or.inl (Or.inr ⟨h, h2⟩)
      · exact Or.inr (Or.inr ⟨h.symm, h2⟩)
    · exact Or.inr (Or.inl h)⟩

instance : IsTrans (ℚ × String) pairLe :=
  ⟨fun a b c hab hbc => by
    unfold pairLe at hab hbc ⊢
    rcases hab with h | ⟨h1, h2⟩
    · rcases hbc with h' | ⟨h1', _⟩
      · exact Or.inl (h.trans h')
      · exact Or.inl (h.trans_eq h1')
    · rcases hbc with h' | ⟨h1', h2'⟩
      · exact Or.inl (h1.trans_lt h')
      · exact Or.inr ⟨h1.trans h1', h2.trans h2'⟩⟩

instance : IsTotal (ℚ × String) pairGe :=
  ⟨fun a b => total_of pairLe b a⟩

instance : IsTrans (ℚ × String) pairGe :=
  ⟨fun _ _ _ hab hbc => trans_of pairLe hbc hab⟩

/-- Result of one call to `summarize`: the printed lowest- and
highest-scoring `(score, sentence)` pairs, in print order. -/
structure SummarizeResult where
  lowest : List (ℚ × String)
  highest : List (ℚ × String)
deriving DecidableEq, Repr

/-- The body of `summarize` (lines 189–221), with the randomly drawn
`review_id` made an explicit argument (`np.random.randint(0, len(reviews))`
always yields an in-range index, so list indexing is total here):
```
review_text = reviews[review_id]
sent_scores = []
for sentence in nltk.sent_tokenize(review_text):
    if len(sentence) > 6:
        score = 0; token_count = 0
        tokens = nltk.word_tokenize(sentence)
        for token in tokens:
            if token in features:
                score += dtm[review_id, features.index(token)]
                token_count += 1
        sent_scores.append((score / float(token_count + 1), sentence))
# lowest:  sorted(sent_scores)[:3]
# highest: sorted(sent_scores, reverse=True)[:3]
```
-/
def summarize (senttok wordtok : String → List String) (dtm : ℕ → ℕ → ℚ)
    (features : List String) (reviews : List String) (review_id : ℕ) :
    SummarizeResult :=
  let review_text := reviews.getD review_id ""
  let sent_scores := sentScores senttok wordtok dtm features review_id review_text
  { lowest := (sent_scores.insertionSort pairLe).take 3
    highest := (sent_scores.insertionSort pairGe).take 3 }

/-- Declarative per-sentence score, following the spec's words: the sum of
the weight-matrix entries of the sentence's in-vocabulary tokens, divided by
(the number of in-vocabulary tokens plus 1). -/
def sentenceScoreSpec (dtm : ℕ → ℕ → ℚ) (features : List String)
    (review_id : ℕ) (tokens : List String) : ℚ :=
  let found := tokens.filter (fun t => decide (t ∈ features))
  (found.map (fun t => dtm review_id (features.indexOf t))).sum /
    ((found.length : ℚ) + 1)

/-! Concrete collaborator instances used for counterexamples and witnesses. -/

/-- An all-zero weight matrix. -/
def dtm0 : ℕ → ℕ → ℚ := fun _ _ => 0

/-- A trivial word tokenizer: the whole sentence is one token. -/
def wordtok0 : String → List String := fun s => [s]

/-- A sentence tokenizer producing two equally scored sentences whose
lexicographic order disagrees with their document order. -/
def senttokTie : String → List String := fun _ => ["b aaaaaa", "a aaaaaa"]

/-- A sentence tokenizer producing a single sentence of exactly 6 characters. -/
def senttokSix : String → List String := fun _ => ["abcdef"]

/-- A sentence tokenizer producing a single qualifying sentence (7 chars). -/
def senttokOne : String → List String := fun _ => ["abcdefg"]

/-- A sentence tokenizer producing only sentences of at most 6 characters. -/
def senttokShort : String → List String := fun _ => ["short!", "hi"]

/-! Helper lemmas. -/

/-- The token loop with an arbitrary accumulator: it adds the weights of the
in-vocabulary tokens to the running score and their number to the counter. -/
theorem foldl_scoreStep (dtm : ℕ → ℕ → ℚ) (features : List String) (rid : ℕ)
    (tokens : List String) :
    ∀ (a : ℚ) (n : ℕ),
      List.foldl
          (fun acc token =>
            if token ∈ features then
              (acc.1 + dtm rid (features.indexOf token), acc.2 + 1)
            else acc)
          (a, n) tokens =
        (a + ((tokens.filter fun t => decide (t ∈ features)).map
            fun t => dtm rid (features.indexOf t)).sum,
         n + (tokens.filter fun t => decide (t ∈ features)).length) := by
  induction tokens with
  | nil => intro a n; simp
  | cons t ts ih =>
      intro a n
      by_cases h : t ∈ features
      · simp only [List.foldl_cons, if_pos h, List.filter_cons, h, decide_True,
          if_true, List.map_cons, List.sum_cons, List.length_cons, ih]
        refine Prod.ext ?_ ?_
        · simp [add_assoc]
        · simp; omega
      · simp [List.foldl_cons, if_neg h, List.filter_cons, h, ih]

/-- `scoreLoop` computes the sum of the in-vocabulary token weights together
with the number of in-vocabulary tokens. -/
theorem scoreLoop_eq (dtm : ℕ → ℕ → ℚ) (features : List String) (rid : ℕ)
    (tokens : List String) :
    scoreLoop dtm features rid tokens =
      (((tokens.filter fun t => decide (t ∈ features)).map
          fun t => dtm rid (features.indexOf t)).sum,
       (tokens.filter fun t => decide (t ∈ features)).length) := by
  unfold scoreLoop
  rw [foldl_scoreStep]
  simp

/-- The sentence loop maps the declarative score over the sentences longer
than 6 characters, in document order. -/
theorem scoreSentences_eq (wordtok : String → List String) (dtm : ℕ → ℕ → ℚ)
    (features : List String) (rid : ℕ) (sents : List String) :
    scoreSentences wordtok dtm features rid sents =
      (sents.filter fun s => decide (6 < s.length)).map
        fun s => (sentenceScoreSpec dtm features rid (wordtok s), s) := by
  induction sents with
  | nil => simp [scoreSentences]
  | cons s rest ih =>
      by_cases h : 6 < s.length
      · simp [scoreSentences, if_pos h, List.filter_cons, h, ih, scoreLoop_eq,
          sentenceScoreSpec]
      · simp [scoreSentences, if_neg h, List.filter_cons, h, ih]

/-- Membership characterization of `sent_scores`: the pairs are exactly the
retained sentences with their declarative scores. -/
theorem mem_sentScores {senttok wordtok : String → List String}
    {dtm : ℕ → ℕ → ℚ} {features : List String} {rid : ℕ} {txt : String}
    {p : ℚ × String} :
    p ∈ sentScores senttok wordtok dtm features rid txt ↔
      p.2 ∈ senttok txt ∧ 6 < p.2.length ∧
        p.1 = sentenceScoreSpec dtm features rid (wordtok p.2) := by
  unfold sentScores
  rw [scoreSentences_eq]
  simp only [List.mem_map, List.mem_filter, decide_eq_true_eq]
  constructor
  · rintro ⟨s, ⟨hs, hlen⟩, rfl⟩
    exact ⟨hs, hlen, rfl⟩
  · rintro ⟨hs, hlen, hsc⟩
    exact ⟨p.2, ⟨hs, hlen⟩, by rw [← hsc]⟩

/-- A pair below another in the lexicographic order has a score at most the
other's. -/
theorem pairLe_fst {a b : ℚ × String} (h : pairLe a b) : a.1 ≤ b.1 := by
  rcases h with h | ⟨h1, _⟩
  · exact le_of_lt h
  · exact le_of_eq h1

/-- Every pair of the printed lowest list is one of the scored pairs. -/
theorem mem_of_mem_lowest {senttok wordtok : String → List String}
    {dtm : ℕ → ℕ → ℚ} {features : List String} {reviews : List String}
    {rid : ℕ} {p : ℚ × String}
    (hp : p ∈ (summarize senttok wordtok dtm features reviews rid).lowest) :
    p ∈ sentScores senttok wordtok dtm features rid (reviews.getD rid "") := by
  have h1 := List.take_subset 3 _ hp
  rwa [List.mem_insertionSort] at h1

/-- Every pair of the printed highest list is one of the scored pairs. -/
theorem mem_of_mem_highest {senttok wordtok : String → List String}
    {dtm : ℕ → ℕ → ℚ} {features : List String} {reviews : List String}
    {rid : ℕ} {p : ℚ × String}
    (hp : p ∈ (summarize senttok wordtok dtm features reviews rid).highest) :
    p ∈ sentScores senttok wordtok dtm features rid (reviews.getD rid "") := by
  have h1 := List.take_subset 3 _ hp
  rwa [List.mem_insertionSort] at h1

/-- The printed lowest list is sorted under the full lexicographic order. -/
theorem lowest_sorted (senttok wordtok : String → List String)
    (dtm : ℕ → ℕ → ℚ) (features : List String) (reviews : List String)
    (rid : ℕ) :
    (summarize senttok wordtok dtm features reviews rid).lowest.Pairwise
      pairLe :=
  (List.sorted_insertionSort pairLe _).sublist (List.take_sublist 3 _)

/-- The printed highest list is sorted under the reversed lexicographic
order. -/
theorem highest_sorted (senttok wordtok : String → List String)
    (dtm : ℕ → ℕ → ℚ) (features : List String) (reviews : List String)
    (rid : ℕ) :
    (summarize senttok wordtok dtm features reviews rid).highest.Pairwise
      pairGe :=
  (List.sorted_insertionSort pairGe _).sublist (List.take_sublist 3 _)

/-! The claims. -/

/-- C1: for every retained sentence of the selected document, the score paired
with it is the sum, over its word tokens that exist in the vocabulary, of the
weight-matrix entry at (document row, term column), divided by (the number of
vocabulary tokens found plus 1); out-of-vocabulary tokens contribute nothing
and are not counted. -/
theorem sentScores_score_formula (senttok wordtok : String → List String)
    (dtm : ℕ → ℕ → ℚ) (features : List String) (rid : ℕ) (txt : String) :
    sentScores senttok wordtok dtm features rid txt =
      ((senttok txt).filter fun s => decide (6 < s.length)).map
        fun s => (sentenceScoreSpec dtm features rid (wordtok s), s) :=
  scoreSentences_eq wordtok dtm features rid (senttok txt)

/-- C2, counterexample: with an all-zero weight matrix the two retained
sentences `"b aaaaaa"` and `"a aaaaaa"` tie at score 0; the document lists
`"b aaaaaa"` first, yet the lowest list outputs `"a aaaaaa"` first, so ties
are NOT broken by original sentence order. -/
theorem summarize_tie_counterexample :
    senttokTie (List.getD ["doc"] 0 "") = ["b aaaaaa", "a aaaaaa"] ∧
    (sentScores senttokTie wordtok0 dtm0 [] 0
        (List.getD ["doc"] 0 "")).map Prod.fst = [0, 0] ∧
    (summarize senttokTie wordtok0 dtm0 [] ["doc"] 0).lowest.map Prod.snd =
      ["a aaaaaa", "b aaaaaa"] ∧
    (summarize senttokTie wordtok0 dtm0 [] ["doc"] 0).lowest.map Prod.snd ≠
      ["b aaaaaa", "a aaaaaa"] := by
  refine ⟨rfl, ?_, ?_, ?_⟩
  · norm_num [sentScores, scoreSentences, scoreLoop, senttokTie, wordtok0,
      dtm0]
    decide
  · norm_num [summarize, sentScores, scoreSentences, scoreLoop, senttokTie,
      wordtok0, dtm0, List.insertionSort, List.orderedInsert, pairLe]
    decide
  · norm_num [summarize, sentScores, scoreSentences, scoreLoop, senttokTie,
      wordtok0, dtm0, List.insertionSort, List.orderedInsert, pairLe]
    decide

/-- C2, amended: ties are broken by the sentence text (Python compares the
full `(score, sentence)` tuple): among equal scores the lowest list is
ascending and the highest list descending in the sentence text. -/
theorem summarize_tie_lexicographic (senttok wordtok : String → List String)
    (dtm : ℕ → ℕ → ℚ) (features : List String) (reviews : List String)
    (rid : ℕ) :
    ((summarize senttok wordtok dtm features reviews rid).lowest.Pairwise
      fun a b => a.1 = b.1 → a.2 ≤ b.2) ∧
    ((summarize senttok wordtok dtm features reviews rid).highest.Pairwise
      fun a b => a.1 = b.1 → b.2 ≤ a.2) := by
  constructor
  · refine (lowest_sorted senttok wordtok dtm features reviews rid).imp ?_
    rintro a b (h | ⟨h1, h2⟩) heq
    · exact absurd (heq ▸ h) (lt_irrefl _)
    · exact h2
  · refine (highest_sorted senttok wordtok dtm features reviews rid).imp ?_
    rintro a b (h | ⟨h1, h2⟩) heq
    · exact absurd (heq ▸ h) (lt_irrefl _)
    · exact h2

/-- C3: no sentence of length at most 6 characters (the default threshold)
appears in either output list of the summarizer. -/
theorem summarize_no_short_sentence (senttok wordtok : String → List String)
    (dtm : ℕ → ℕ → ℚ) (features : List String) (reviews : List String)
    (rid : ℕ) (p : ℚ × String)
    (hp : p ∈ (summarize senttok wordtok dtm features reviews rid).lowest ∨
      p ∈ (summarize senttok wordtok dtm features reviews rid).highest) :
    6 < p.2.length := by
  rcases hp with hp | hp
  · exact (mem_sentScores.1 (mem_of_mem_lowest hp)).2.1
  · exact (mem_sentScores.1 (mem_of_mem_highest hp)).2.1

/-- Witness for C3 at a concrete input. -/
theorem summarize_no_short_sentence_witness :
    6 < (((0 : ℚ), ("abcdefg" : String)) : ℚ × String).2.length :=
  summarize_no_short_sentence senttokOne wordtok0 dtm0 [] ["d"] 0
    ((0 : ℚ), "abcdefg")
    (Or.inl (by
      norm_num [summarize, sentScores, scoreSentences, scoreLoop, senttokOne,
        wordtok0, dtm0, List.insertionSort, List.orderedInsert]))

/-- C4, counterexample: a sentence of exactly 6 characters is NOT retained:
with the single 6-character sentence `"abcdef"` the summarizer scores nothing
and returns two empty lists. -/
theorem summarize_six_char_counterexample :
    ("abcdef" : String).length = 6 ∧
    senttokSix (List.getD ["d"] 0 "") = ["abcdef"] ∧
    sentScores senttokSix wordtok0 dtm0 [] 0 (List.getD ["d"] 0 "") = [] ∧
    (summarize senttokSix wordtok0 dtm0 [] ["d"] 0).lowest = [] ∧
    (summarize senttokSix wordtok0 dtm0 [] ["d"] 0).highest = [] := by
  refine ⟨rfl, rfl, ?_, ?_, ?_⟩ <;>
    · norm_num [summarize, sentScores, scoreSentences, scoreLoop, senttokSix,
        wordtok0, dtm0, List.insertionSort, List.orderedInsert]
      try decide

/-- C4, amended: the summarizer retains exactly the sentences of length
strictly greater than 6 characters (so a sentence of length exactly 6 is
discarded, and every sentence of length at least 7 is retained and scored). -/
theorem sentScores_retained_iff (senttok wordtok : String → List String)
    (dtm : ℕ → ℕ → ℚ) (features : List String) (rid : ℕ) (txt : String) :
    (sentScores senttok wordtok dtm features rid txt).map Prod.snd =
      (senttok txt).filter fun s => decide (6 < s.length) := by
  rw [sentScores, scoreSentences_eq, List.map_map]
  simp [Function.comp_def]

/-- C5: the lowest list is ascending in score, the highest list descending in
score, and each list has at most 3 entries. -/
theorem summarize_rank_correct (senttok wordtok : String → List String)
    (dtm : ℕ → ℕ → ℚ) (features : List String) (reviews : List String)
    (rid : ℕ) :
    ((summarize senttok wordtok dtm features reviews rid).lowest.Pairwise
      fun a b => a.1 ≤ b.1) ∧
    ((summarize senttok wordtok dtm features reviews rid).highest.Pairwise
      fun a b => b.1 ≤ a.1) ∧
    (summarize senttok wordtok dtm features reviews rid).lowest.length ≤ 3 ∧
    (summarize senttok wordtok dtm features reviews rid).highest.length ≤ 3 := by
  refine ⟨?_, ?_, ?_, ?_⟩
  · exact (lowest_sorted senttok wordtok dtm features reviews rid).imp
      fun h => pairLe_fst h
  · exact (highest_sorted senttok wordtok dtm features reviews rid).imp
      fun h => pairLe_fst h
  · exact List.length_take_le 3 _
  · exact List.length_take_le 3 _

/-- C6: the summarizer is deterministic: two invocations on the same corpus
model (weight matrix, vocabulary), tokenizers, review list and document index
return identical results. -/
theorem summarize_deterministic (st₁ st₂ wt₁ wt₂ : String → List String)
    (dtm₁ dtm₂ : ℕ → ℕ → ℚ) (f₁ f₂ : List String) (rs₁ rs₂ : List String)
    (rid₁ rid₂ : ℕ) (hst : st₁ = st₂) (hwt : wt₁ = wt₂) (hdtm : dtm₁ = dtm₂)
    (hf : f₁ = f₂) (hrs : rs₁ = rs₂) (hrid : rid₁ = rid₂) :
    summarize st₁ wt₁ dtm₁ f₁ rs₁ rid₁ = summarize st₂ wt₂ dtm₂ f₂ rs₂ rid₂ := by
  subst hst hwt hdtm hf hrs hrid
  rfl

/-- Witness for C6 at a concrete input. -/
theorem summarize_deterministic_witness :
    summarize senttokOne wordtok0 dtm0 [] ["d"] 0 =
      summarize senttokOne wordtok0 dtm0 [] ["d"] 0 :=
  summarize_deterministic senttokOne senttokOne wordtok0 wordtok0 dtm0 dtm0
    [] [] ["d"] ["d"] 0 0 rfl rfl rfl rfl rfl rfl

/-- The lowest list of `summarize`, unfolded. -/
theorem summarize_lowest_def (senttok wordtok : String → List String)
    (dtm : ℕ → ℕ → ℚ) (features : List String) (reviews : List String)
    (rid : ℕ) :
    (summarize senttok wordtok dtm features reviews rid).lowest =
      ((sentScores senttok wordtok dtm features rid
          (reviews.getD rid "")).insertionSort pairLe).take 3 :=
  rfl

/-- The highest list of `summarize`, unfolded. -/
theorem summarize_highest_def (senttok wordtok : String → List String)
    (dtm : ℕ → ℕ → ℚ) (features : List String) (reviews : List String)
    (rid : ℕ) :
    (summarize senttok wordtok dtm features reviews rid).highest =
      ((sentScores senttok wordtok dtm features rid
          (reviews.getD rid "")).insertionSort pairGe).take 3 :=
  rfl

/-- C7: when every sentence of the document has length at most 6, the
summarizer returns two empty lists (a valid result, not an error). -/
theorem summarize_all_short_empty (senttok wordtok : String → List String)
    (dtm : ℕ → ℕ → ℚ) (features : List String) (reviews : List String)
    (rid : ℕ)
    (h : ∀ s ∈ senttok (reviews.getD rid ""), s.length ≤ 6) :
    (summarize senttok wordtok dtm features reviews rid).lowest = [] ∧
    (summarize senttok wordtok dtm features reviews rid).highest = [] := by
  have hs : sentScores senttok wordtok dtm features rid
      (reviews.getD rid "") = [] := by
    rw [sentScores, scoreSentences_eq]
    have hf : (senttok (reviews.getD rid "")).filter
        (fun s => decide (6 < s.length)) = [] := by
      rw [List.filter_eq_nil_iff]
      intro s hsmem
      simpa using Nat.not_lt.2 (h s hsmem)
    rw [hf]
    rfl
  rw [summarize_lowest_def, summarize_highest_def, hs]
  constructor <;> rfl

/-- Witness for C7 at a concrete input. -/
theorem summarize_all_short_empty_witness :
    (summarize senttokShort wordtok0 dtm0 [] [""] 0).lowest = [] ∧
    (summarize senttokShort wordtok0 dtm0 [] [""] 0).highest = [] :=
  summarize_all_short_empty senttokShort wordtok0 dtm0 [] [""] 0
    (by decide)

/-- C8: with fewer than 3 qualifying sentences both output lists contain
exactly the qualifying `(score, sentence)` pairs; in particular a single
qualifying sentence is returned, alone, in both lists. -/
theorem summarize_few_qualifying (senttok wordtok : String → List String)
    (dtm : ℕ → ℕ → ℚ) (features : List String) (reviews : List String)
    (rid : ℕ) :
    ((sentScores senttok wordtok dtm features rid
        (reviews.getD rid "")).length < 3 →
      ∀ p : ℚ × String,
        (p ∈ sentScores senttok wordtok dtm features rid
            (reviews.getD rid "") ↔
          p ∈ (summarize senttok wordtok dtm features reviews rid).lowest) ∧
        (p ∈ sentScores senttok wordtok dtm features rid
            (reviews.getD rid "") ↔
          p ∈ (summarize senttok wordtok dtm features reviews rid).highest)) ∧
    (∀ p : ℚ × String,
      sentScores senttok wordtok dtm features rid (reviews.getD rid "") = [p] →
        (summarize senttok wordtok dtm features reviews rid).lowest = [p] ∧
        (summarize senttok wordtok dtm features reviews rid).highest = [p]) := by
  constructor
  · intro hlen p
    have h1 : ∀ r : (ℚ × String) → (ℚ × String) → Prop, [DecidableRel r] →
        ((sentScores senttok wordtok dtm features rid
          (reviews.getD rid "")).insertionSort r).take 3 =
        (sentScores senttok wordtok dtm features rid
          (reviews.getD rid "")).insertionSort r := by
      intro r _
      apply List.take_of_length_le
      rw [List.length_insertionSort]
      omega
    rw [summarize_lowest_def, summarize_highest_def, h1, h1,
      List.mem_insertionSort, List.mem_insertionSort]
    exact ⟨Iff.rfl, Iff.rfl⟩
  · intro p hp
    rw [summarize_lowest_def, summarize_highest_def, hp]
    constructor <;> rfl

/-- Witness for C8 at a concrete input with one qualifying sentence. -/
theorem summarize_few_qualifying_witness :
    (summarize senttokOne wordtok0 dtm0 [] ["d"] 0).lowest =
      [((0 : ℚ), "abcdefg")] ∧
    (summarize senttokOne wordtok0 dtm0 [] ["d"] 0).highest =
      [((0 : ℚ), "abcdefg")] :=
  (summarize_few_qualifying senttokOne wordtok0 dtm0 [] ["d"] 0).2
    ((0 : ℚ), "abcdefg")
    (by
      norm_num [sentScores, scoreSentences, scoreLoop, senttokOne, wordtok0,
        dtm0]
      decide)

/-- C9: every score in `sent_scores` is the program's weight sum divided by
the program's token count plus 1 — `scoreLoop`'s own accumulators for that
sentence — and that denominator is at least 1, hence positive, so the
division is never by zero; when the sentence has no vocabulary tokens the
token count is 0 and the denominator is exactly 1. -/
theorem sentScores_denominator_pos (senttok wordtok : String → List String)
    (dtm : ℕ → ℕ → ℚ) (features : List String) (rid : ℕ) (txt : String)
    (p : ℚ × String) (hp : p ∈ sentScores senttok wordtok dtm features rid txt) :
    p.1 = (scoreLoop dtm features rid (wordtok p.2)).1 /
        (((scoreLoop dtm features rid (wordtok p.2)).2 : ℚ) + 1) ∧
    1 ≤ (scoreLoop dtm features rid (wordtok p.2)).2 + 1 ∧
    (0 : ℚ) < ((scoreLoop dtm features rid (wordtok p.2)).2 : ℚ) + 1 ∧
    ((∀ t ∈ wordtok p.2, t ∉ features) →
      (scoreLoop dtm features rid (wordtok p.2)).2 = 0) := by
  obtain ⟨-, -, hsc⟩ := mem_sentScores.1 hp
  rw [scoreLoop_eq]
  refine ⟨?_, ?_, ?_, ?_⟩
  · rw [hsc]
    rfl
  · omega
  · positivity
  · intro hnone
    have hnil : (wordtok p.2).filter (fun t => decide (t ∈ features)) = [] := by
      rw [List.filter_eq_nil_iff]
      intro t ht
      simpa using hnone t ht
    simp [hnil]

/-- Witness for C9 at a concrete input. -/
theorem sentScores_denominator_pos_witness :
    (((0 : ℚ), ("abcdefg" : String)) : ℚ × String).1 =
      (scoreLoop dtm0 [] 0 (wordtok0 "abcdefg")).1 /
        (((scoreLoop dtm0 [] 0 (wordtok0 "abcdefg")).2 : ℚ) + 1) ∧
    1 ≤ (scoreLoop dtm0 [] 0 (wordtok0 "abcdefg")).2 + 1 ∧
    (0 : ℚ) < ((scoreLoop dtm0 [] 0 (wordtok0 "abcdefg")).2 : ℚ) + 1 ∧
    ((∀ t ∈ wordtok0 "abcdefg", t ∉ ([] : List String)) →
      (scoreLoop dtm0 [] 0 (wordtok0 "abcdefg")).2 = 0) :=
  sentScores_denominator_pos senttokOne wordtok0 dtm0 [] 0 "d"
    ((0 : ℚ), "abcdefg")
    (by
      norm_num [sentScores, scoreSentences, scoreLoop, senttokOne, wordtok0,
        dtm0]
      decide)

/-- C10: with a nonnegative weight matrix every sentence score is
nonnegative, and a retained sentence with no vocabulary tokens scores
exactly 0. -/
theorem sentScores_nonneg (senttok wordtok : String → List String)
    (dtm : ℕ → ℕ → ℚ) (features : List String) (rid : ℕ) (txt : String)
    (hdtm : ∀ i j, 0 ≤ dtm i j) (p : ℚ × String)
    (hp : p ∈ sentScores senttok wordtok dtm features rid txt) :
    0 ≤ p.1 ∧ ((∀ t ∈ wordtok p.2, t ∉ features) → p.1 = 0) := by
  obtain ⟨-, -, hsc⟩ := mem_sentScores.1 hp
  constructor
  · rw [hsc]
    unfold sentenceScoreSpec
    apply div_nonneg
    · apply List.sum_nonneg
      intro x hx
      obtain ⟨t, -, rfl⟩ := List.mem_map.1 hx
      exact hdtm rid _
    · positivity
  · intro hnone
    rw [hsc]
    unfold sentenceScoreSpec
    have hnil : (wordtok p.2).filter (fun t => decide (t ∈ features)) = [] := by
      rw [List.filter_eq_nil_iff]
      intro t ht
      simpa using hnone t ht
    rw [hnil]
    simp

/-- Witness for C10 at a concrete input. -/
theorem sentScores_nonneg_witness :
    0 ≤ (((0 : ℚ), ("abcdefg" : String)) : ℚ × String).1 ∧
    ((∀ t ∈ wordtok0 (((0 : ℚ), ("abcdefg" : String)) : ℚ × String).2,
        t ∉ ([] : List String)) →
      (((0 : ℚ), ("abcdefg" : String)) : ℚ × String).1 = 0) :=
  sentScores_nonneg senttokOne wordtok0 dtm0 [] 0 "d"
    (fun _ _ => le_refl 0) ((0 : ℚ), "abcdefg")
    (by
      norm_num [sentScores, scoreSentences, scoreLoop, senttokOne, wordtok0,
        dtm0]
      decide)

end NlpClass
